import Mathlib

/-!
# Verification of the redwood-envelop-examples directive engine

Shallow embedding of the two source files of the repository:

* `example-1.ts` — the static directive-presence validator `validateDirectives`
  over a parsed GraphQL schema declaration tree (a `DocumentNode`);
* the runtime directive-interception pipeline — `getDirective`,
  `useRedwoodDirectives` (its per-field `onResolverCalled` flow), the
  `requiresAuthDirective` and `uppercaseDirective` hook registrations, and the
  argument decoding performed by graphql-js's `getDirectiveValues` /
  `getArgumentValues`, which the pipeline calls.

JavaScript optional values (`undefined`) are modelled with `Option`; code paths
that throw (a `TypeError` on dereferencing `undefined`, a `GraphQLError` from
argument coercion, a validation callback throwing) are modelled with
`Except String`.
-/

namespace Redwood

/-! ## Schema declaration tree (graphql-js AST subset used by the sources) -/

/-- A literal or variable argument value as written in the schema/query text. -/
inductive ValueNode where
  | enumValue (s : String)
  | stringValue (s : String)
  | intValue (n : Int)
  | booleanValue (b : Bool)
  | nullValue
  | variable (name : String)
deriving DecidableEq, Repr

/-- A directive annotation `@name(args...)` attached to a field definition.
graphql-js stores `arguments` as a possibly-absent array; absence and `[]`
behave identically in every code path of the repository, so a plain list is
used. -/
structure DirectiveNode where
  name : String
  arguments : List (String × ValueNode) := []
deriving DecidableEq, Repr

/-- A field definition inside an object type definition.  `directives` is
optional in the graphql-js AST (`field.directives?.some(...)` in
`example-1.ts`), so it is an `Option` here. -/
structure FieldDefinitionNode where
  name : String
  directives : Option (List DirectiveNode)
deriving DecidableEq, Repr

/-- A runtime value (resolver results, decoded directive arguments, context
entries).  `null` models both JS `null` and a decoded GraphQL null. -/
structure User where
  id : String
  name : String
  role : String
deriving DecidableEq, Repr

inductive Value where
  | str (s : String)
  | int (n : Int)
  | bool (b : Bool)
  | null
  | user (u : User)
deriving DecidableEq, Repr

/-- A declared argument of a directive definition: its name, whether its type
is non-null (required), and its declared default value if any. -/
structure ArgDef where
  name : String
  required : Bool
  defaultValue : Option Value := none
deriving DecidableEq, Repr

/-- Top-level definitions of a schema document.  `validateDirectives` visits
only `objectTypeDefinition` nodes; the other constructors cover the remaining
definition kinds appearing in the repository's schema texts (directive
definitions, enum definitions) plus object type extensions, which the visitor
callback in `example-1.ts` does not match. -/
inductive DefinitionNode where
  | objectTypeDefinition (name : String) (fields : Option (List FieldDefinitionNode))
  | objectTypeExtension (name : String) (fields : Option (List FieldDefinitionNode))
  | directiveDefinition (name : String) (args : List ArgDef)
  | enumTypeDefinition (name : String) (values : List String)
  | scalarTypeDefinition (name : String)
deriving DecidableEq, Repr

/-- A parsed schema document. -/
structure DocumentNode where
  definitions : List DefinitionNode
deriving DecidableEq, Repr

def DefinitionNode.isObjectTypeDefinition : DefinitionNode → Bool
  | .objectTypeDefinition _ _ => true
  | _ => false

def DefinitionNode.isDirectiveDefinition : DefinitionNode → Bool
  | .directiveDefinition _ _ => true
  | _ => false

/-! ## Static directive-presence validator (`example-1.ts`) -/

/-- The `ObjectTypeDefinition` visitor callback of `validateDirectives`: for a
type whose name is in `typesToCheck`, append `"Type.field"` for every field
without an enforced directive; all other definition kinds are left untouched
by the visit. -/
def visitDefinition (directivesToEnforce typesToCheck : List String)
    (result : List String) : DefinitionNode → List String
  | .objectTypeDefinition typeName fields =>
    if typesToCheck.contains typeName then
      (fields.getD []).foldl (fun r field =>
        let hasDirective := (field.directives.getD []).any fun d =>
          directivesToEnforce.contains d.name
        if hasDirective then r
        else r ++ [typeName ++ "." ++ field.name]) result
    else result
  | _ => result

/-- `validateDirectives(schemaDocumentNode, directivesToEnforce, typesToCheck)`
from `example-1.ts`: visit the document's definitions in order, collecting
violations into one shared result list. -/
def validateDirectives (schemaDocumentNode : DocumentNode)
    (directivesToEnforce typesToCheck : List String) : List String :=
  schemaDocumentNode.definitions.foldl
    (visitDefinition directivesToEnforce typesToCheck) []

/-- Modelled from the spec: the violation sequence of a single target object
type — the fully-qualified names of its fields carrying no directive whose
name is in the required set, in declaration order. -/
def typeViolationsSpec (required : List String) (typeName : String)
    (fields : List FieldDefinitionNode) : List String :=
  fields.filterMap fun f =>
    if (f.directives.getD []).any (fun d => required.contains d.name) then none
    else some (typeName ++ "." ++ f.name)

/-- Modelled from the spec: the contribution of one top-level definition to the
violation sequence (empty unless it is an object type definition of a target
type). -/
def definitionViolationsSpec (required targets : List String) :
    DefinitionNode → List String
  | .objectTypeDefinition tn fields =>
    if targets.contains tn then typeViolationsSpec required tn (fields.getD [])
    else []
  | _ => []

/-- Modelled from the spec (§4.4, refinement reference): the full ordered
violation sequence, concatenated over the document's definitions in
declaration order. -/
def validateDirectivesSpec (doc : DocumentNode)
    (required targets : List String) : List String :=
  doc.definitions.flatMap (definitionViolationsSpec required targets)

/-! Helper lemmas relating the foldl-accumulator form of the source code to
the concatenation form of the spec. -/

theorem foldl_fields_append (directivesToEnforce : List String)
    (typeName : String) (fields : List FieldDefinitionNode)
    (r : List String) :
    fields.foldl (fun r field =>
        let hasDirective := (field.directives.getD []).any fun d =>
          directivesToEnforce.contains d.name
        if hasDirective then r
        else r ++ [typeName ++ "." ++ field.name]) r
      = r ++ typeViolationsSpec directivesToEnforce typeName fields := by
  induction fields generalizing r with
  | nil => simp [typeViolationsSpec]
  | cons f fs ih =>
    simp only [List.foldl_cons, typeViolationsSpec, List.filterMap_cons]
    by_cases h : (f.directives.getD []).any (fun d => directivesToEnforce.contains d.name)
    · simp only [h, if_true, ih]
      simp [typeViolationsSpec]
    · simp only [h, if_false, ih]
      simp [typeViolationsSpec]

theorem visitDefinition_append (dirs types : List String) (r : List String)
    (d : DefinitionNode) :
    visitDefinition dirs types r d = r ++ definitionViolationsSpec dirs types d := by
  cases d with
  | objectTypeDefinition tn fields =>
    simp only [visitDefinition, definitionViolationsSpec]
    cases hc : types.contains tn with
    | true =>
      simp only [hc, eq_self_iff_true, if_true]
      exact foldl_fields_append dirs tn (fields.getD []) r
    | false => simp [hc]
  | objectTypeExtension tn fields => simp [visitDefinition, definitionViolationsSpec]
  | directiveDefinition n args => simp [visitDefinition, definitionViolationsSpec]
  | enumTypeDefinition n vs => simp [visitDefinition, definitionViolationsSpec]
  | scalarTypeDefinition n => simp [visitDefinition, definitionViolationsSpec]

theorem foldl_visit_append (dirs types : List String)
    (defs : List DefinitionNode) (acc : List String) :
    defs.foldl (visitDefinition dirs types) acc
      = acc ++ defs.flatMap (definitionViolationsSpec dirs types) := by
  induction defs generalizing acc with
  | nil => simp
  | cons d ds ih =>
    simp only [List.foldl_cons, List.flatMap_cons, visitDefinition_append, ih,
      List.append_assoc]

/-- The source validator agrees with the spec-modelled reference on every
input. -/
theorem validateDirectives_eq_spec (doc : DocumentNode)
    (required targets : List String) :
    validateDirectives doc required targets
      = validateDirectivesSpec doc required targets := by
  simp [validateDirectives, validateDirectivesSpec, foldl_visit_append]

/-! ## Runtime schema objects (built by `makeExecutableSchema`)

The executable schema exposes type lookup by name (`schema.getType`), field
lookup within a type (`schemaType.getFields()[fieldName]`), the field's AST
declaration node (`field.astNode`, absent for fields unknown to the
declaration tree), and directive-definition lookup (`schema.getDirective`). -/

/-- A directive definition registered on the executable schema: name plus
declared arguments. -/
structure DirectiveDef where
  name : String
  args : List ArgDef
deriving DecidableEq, Repr

/-- A runtime field of an executable-schema object type, carrying its optional
AST declaration node. -/
structure RuntimeField where
  name : String
  astNode : Option FieldDefinitionNode
deriving DecidableEq, Repr

/-- A runtime object type of the executable schema. -/
structure RuntimeObjectType where
  name : String
  fields : List RuntimeField
deriving DecidableEq, Repr

/-- The executable schema: object types and registered directive
definitions. -/
structure GraphQLSchema where
  types : List RuntimeObjectType
  directives : List DirectiveDef
deriving DecidableEq, Repr

/-- `schema.getType(name)`: `undefined` when absent, modelled as `none`. -/
def GraphQLSchema.getType (s : GraphQLSchema) (n : String) :
    Option RuntimeObjectType :=
  s.types.find? fun t => t.name = n

/-- `schemaType.getFields()[fieldName]`: `undefined` when absent. -/
def RuntimeObjectType.getField (t : RuntimeObjectType) (n : String) :
    Option RuntimeField :=
  t.fields.find? fun f => f.name = n

/-- `schema.getDirective(name)`: the registered directive definition, or
`undefined`. -/
def GraphQLSchema.getDirective (s : GraphQLSchema) (n : String) :
    Option DirectiveDef :=
  s.directives.find? fun d => d.name = n

/-- The per-field resolver info: parent type object, field name, schema
(`info.parentType`, `info.fieldName`, `info.schema`). -/
structure GraphQLResolveInfo where
  parentType : RuntimeObjectType
  fieldName : String
  schema : GraphQLSchema
deriving DecidableEq, Repr

/-- The query's context value.  The repository's code dereferences both
`contextValue.currentUser` and the misspelled `contextValue.correntUser`; the
latter property is modelled as a slot that every context constructed in the
repository leaves absent (`none`). -/
structure ContextValue where
  currentUser : Option User := none
  correntUser : Option User := none
deriving DecidableEq, Repr

/-- The execution arguments handed to `onExecute` (`executionArgs`):
schema, context value and runtime variable values. -/
structure ExecutionArgs where
  schema : GraphQLSchema
  contextValue : ContextValue
  variableValues : List (String × Value) := []
deriving DecidableEq, Repr

/-- The `ResolverPayload` record `{ root, args, context, info }` handed to the
callbacks. -/
structure ResolverPayload where
  root : Value
  args : List (String × Value)
  context : ContextValue
  info : GraphQLResolveInfo
deriving DecidableEq, Repr

/-! ## Directive Locator (`getDirective` of `part_000`) -/

/-- `getDirective(info, name)` from the source.  The source optional-chains
only on `astNode` (`astNode?.directives?`); dereferencing a missing schema
type (`schemaType.getFields()`) or a missing field (`field.astNode`) throws a
`TypeError`, modelled as `Except.error`.  A missing declaration node, or no
name match, yields `null` (`Except.ok none`). -/
def getDirective (info : GraphQLResolveInfo) (name : String) :
    Except String (Option DirectiveNode) :=
  match info.schema.getType info.parentType.name with
  | none => .error "TypeError: Cannot read properties of undefined (reading getFields)"
  | some schemaType =>
    match schemaType.getField info.fieldName with
    | none => .error "TypeError: Cannot read properties of undefined (reading astNode)"
    | some field =>
      .ok (field.astNode.bind fun astNode =>
        (astNode.directives.getD []).find? fun d => d.name = name)

/-! ## Argument Decoder (graphql-js `getArgumentValues` / `getDirectiveValues`,
called by the pipeline) -/

/-- Coercion of a literal value node to a runtime value (graphql-js
`valueFromAST`, restricted to the value shapes of this repository; enum
values decode to their name string, as graphql-js does for the `Role`
enum). -/
def coerceValueNode (v : ValueNode) (vars : List (String × Value)) :
    Option Value :=
  match v with
  | .enumValue s => some (.str s)
  | .stringValue s => some (.str s)
  | .intValue n => some (.int n)
  | .booleanValue b => some (.bool b)
  | .nullValue => some .null
  | .variable n => vars.lookup n

/-- Decoding of one declared argument of a directive (one iteration of the
loop in graphql-js `getArgumentValues`): a missing supplied value takes the
declared default, errors for a non-null (required) type, or is skipped; a
supplied variable falls back likewise when unbound; `null` for a required
type errors. -/
def decodeArg (argDef : ArgDef) (argNodes : List (String × ValueNode))
    (vars : List (String × Value)) : Except String (List (String × Value)) :=
  match argNodes.lookup argDef.name with
  | none =>
    match argDef.defaultValue with
    | some d => .ok [(argDef.name, d)]
    | none =>
      if argDef.required then
        .error ("Argument " ++ argDef.name ++ " of required type was not provided.")
      else .ok []
  | some valueNode =>
    match valueNode with
    | .variable vn =>
      match vars.lookup vn with
      | some v =>
        if v = Value.null && argDef.required then
          .error ("Argument " ++ argDef.name ++ " of required type must not be null.")
        else .ok [(argDef.name, v)]
      | none =>
        match argDef.defaultValue with
        | some d => .ok [(argDef.name, d)]
        | none =>
          if argDef.required then
            .error ("Argument " ++ argDef.name ++ " was provided the variable $"
              ++ vn ++ " which was not provided a runtime value.")
          else .ok []
    | .nullValue =>
      if argDef.required then
        .error ("Argument " ++ argDef.name ++ " of required type must not be null.")
      else .ok [(argDef.name, Value.null)]
    | _ =>
      match coerceValueNode valueNode vars with
      | some v => .ok [(argDef.name, v)]
      | none => .error ("Argument " ++ argDef.name ++ " has invalid value.")

/-- graphql-js `getArgumentValues`: decode every declared argument in
declaration order, failing on the first invalid/missing-required argument. -/
def getArgumentValues (args : List ArgDef)
    (argNodes : List (String × ValueNode)) (vars : List (String × Value)) :
    Except String (List (String × Value)) :=
  match args with
  | [] => .ok []
  | a :: rest =>
    match decodeArg a argNodes vars with
    | .error e => .error e
    | .ok entry =>
      match getArgumentValues rest argNodes vars with
      | .error e => .error e
      | .ok restVals => .ok (entry ++ restVals)

/-- graphql-js `getDirectiveValues(directiveDef, node, variableValues)`:
`undefined` (`none`) when no annotation in `node.directives` names the
definition; otherwise the decoded argument mapping of the first match. -/
def getDirectiveValues (dirDef : DirectiveDef)
    (directives : List DirectiveNode) (vars : List (String × Value)) :
    Except String (Option (List (String × Value))) :=
  match directives.find? (fun d => d.name = dirDef.name) with
  | some node => (getArgumentValues dirDef.args node.arguments vars).map some
  | none => .ok none

/-- The decoded directive arguments the pipeline passes to the callbacks:
`getDirectiveValues(...) || {}` from `useRedwoodDirectives`. -/
def pipelineDirectiveArgs (directive : DirectiveDef)
    (directiveNode : DirectiveNode) (vars : List (String × Value)) :
    Except String (List (String × Value)) :=
  (getDirectiveValues directive [directiveNode] vars).map fun o => o.getD []

/-! ## Hook Registrations (`RedwoodDirective` values) -/

/-- A `RedwoodDirective` hook registration: the parsed schema fragment plus
the two independently-optional callbacks.  Validation may throw
(`Except.error`); transformation returns the replacement value. -/
structure RedwoodDirective where
  schemaDoc : DocumentNode
  validation : Option (ExecutionArgs → List (String × Value) → ResolverPayload →
    Except String Unit) := none
  transformation : Option (ExecutionArgs → List (String × Value) →
    ResolverPayload → Value → Value) := none

/-- Rendering of a decoded argument value into the interpolated error message
of the `@auth` validation (JS template-string semantics; an absent property
prints as `undefined`). -/
def renderValue : Option Value → String
  | none => "undefined"
  | some (.str s) => s
  | some (.int n) => toString n
  | some (.bool b) => if b then "true" else "false"
  | some .null => "null"
  | some (.user _) => "[object Object]"

/-- The validation callback of `requiresAuthDirective`.  It throws when
`contextValue.currentUser` is falsy; the role check then dereferences the
misspelled property `contextValue.correntUser` (never set by any caller), so
its mismatch branch requires `correntUser` to be present. -/
def requiresAuthValidation (args : ExecutionArgs)
    (directiveArgs : List (String × Value)) (_resolverParams : ResolverPayload) :
    Except String Unit :=
  match args.contextValue.currentUser with
  | none => .error "Oops, go away!"
  | some _ =>
    match args.contextValue.correntUser with
    | some u =>
      if directiveArgs.lookup "role" ≠ some (Value.str u.role) then
        .error ("You don't have the required role '"
          ++ renderValue (directiveArgs.lookup "role") ++ "' for this field!")
      else .ok ()
    | none => .ok ()

/-- `requiresAuthDirective` from the source: the parsed schema fragment
declares `enum Role` and `directive @auth(role: Role!) on FIELD_DEFINITION`
(the `role` argument is non-null with no default), with only a validation
callback. -/
def requiresAuthDirective : RedwoodDirective :=
  { schemaDoc := ⟨[ .enumTypeDefinition "Role" ["USER", "ADMIN"]
                  , .directiveDefinition "auth" [⟨"role", true, none⟩] ]⟩
  , validation := some requiresAuthValidation }

/-- JS `String.prototype.toUpperCase`, character by character (the
repository's strings are ASCII, where per-character uppercasing coincides
with JS semantics). -/
def jsToUpperCase (s : String) : String := ⟨s.data.map Char.toUpper⟩

/-- The transformation callback of `uppercaseDirective`: truthy string
results are uppercased, everything else passes through unchanged. -/
def uppercaseTransformation (_args : ExecutionArgs)
    (_directiveArgs : List (String × Value)) (_resolverParams : ResolverPayload)
    (result : Value) : Value :=
  match result with
  | .str s => if s ≠ "" then .str (jsToUpperCase s) else .str s
  | _ => result

/-- `uppercaseDirective` from the source: schema fragment declaring
`directive @uppercase on FIELD_DEFINITION`, with only a transformation
callback. -/
def uppercaseDirective : RedwoodDirective :=
  { schemaDoc := ⟨[.directiveDefinition "uppercase" []]⟩
  , transformation := some uppercaseTransformation }

/-- Directive-name extraction performed once by `useRedwoodDirectives`: the
name of the first `DirectiveDefinition` in the parsed schema fragment
(`undefined` dereference — hence `none` — if the fragment has no directive
definition). -/
def extractDirectiveName (doc : DocumentNode) : Option String :=
  match doc.definitions.find? DefinitionNode.isDirectiveDefinition with
  | some (.directiveDefinition n _) => some n
  | _ => none

/-! ## Interception Pipeline (`useRedwoodDirectives` / `onResolverCalled`) -/

/-- Which callbacks and setters actually ran during one field resolution. -/
structure Trace where
  validationCalled : Bool
  transformationCalled : Bool
  setResultCalled : Bool
deriving DecidableEq, Repr

/-- The after-resolver hook returned by `onResolverCalled`: when a
transformation callback is registered it is invoked on the resolver's result
and `setResult` is called with the modified value; otherwise the result
stands. -/
def afterResolver (rd : RedwoodDirective) (executionArgs : ExecutionArgs)
    (directiveArgs : List (String × Value)) (payload : ResolverPayload)
    (result : Value) (validated : Bool) : Trace × Except String Value :=
  match rd.transformation with
  | some transform =>
    (⟨validated, true, true⟩,
      .ok (transform executionArgs directiveArgs payload result))
  | none => (⟨validated, false, false⟩, .ok result)

/-- One field resolution under the plugin installed by
`useRedwoodDirectives rd` (with `directiveName` extracted at installation):
locate the field's directive annotation; if absent, do nothing; otherwise
look up the directive definition on the executing schema (absent definition:
do nothing); decode the arguments (`|| {}`); run the validation callback if
registered (a throw aborts the field with that error); then run the
after-resolver hook on the resolver's result.  The returned `Trace` records
which callbacks ran, and the `Except` is the field's outcome. -/
def runFieldResolution (directiveName : String) (rd : RedwoodDirective)
    (executionArgs : ExecutionArgs) (payload : ResolverPayload)
    (resolverResult : Value) : Trace × Except String Value :=
  match getDirective payload.info directiveName with
  | .error e => (⟨false, false, false⟩, .error e)
  | .ok none => (⟨false, false, false⟩, .ok resolverResult)
  | .ok (some directiveNode) =>
    match executionArgs.schema.getDirective directiveNode.name with
    | none => (⟨false, false, false⟩, .ok resolverResult)
    | some directive =>
      match pipelineDirectiveArgs directive directiveNode
          executionArgs.variableValues with
      | .error e => (⟨false, false, false⟩, .error e)
      | .ok directiveArgs =>
        match rd.validation with
        | some validate =>
          match validate executionArgs directiveArgs payload with
          | .error e => (⟨true, false, false⟩, .error e)
          | .ok _ =>
            afterResolver rd executionArgs directiveArgs payload resolverResult true
        | none =>
          afterResolver rd executionArgs directiveArgs payload resolverResult false

/-! ## Concrete schemas of the repository -/

/-- The parsed `testSchema` of `example-1.ts`. -/
def exampleTestSchema : DocumentNode :=
  ⟨[ .directiveDefinition "auth" []
   , .directiveDefinition "noAuth" []
   , .objectTypeDefinition "Query" (some
       [ ⟨"noAuthError", some []⟩
       , ⟨"version", some [⟨"noAuth", []⟩]⟩
       , ⟨"me", some [⟨"auth", []⟩]⟩
       , ⟨"test", some []⟩ ])
   , .objectTypeDefinition "User" (some
       [ ⟨"id", some []⟩
       , ⟨"name", some []⟩ ]) ]⟩

/-- The schema of the spec's validator example: `Query` with fields `a` (no
directives), `b` (`@noAuth`), `c` (`@auth`). -/
def claimOneSchema : DocumentNode :=
  ⟨[ .objectTypeDefinition "Query" (some
       [ ⟨"a", some []⟩
       , ⟨"b", some [⟨"noAuth", []⟩]⟩
       , ⟨"c", some [⟨"auth", []⟩]⟩ ]) ]⟩

/-- A document consisting only of an object type extension of a target type
whose field lacks every directive. -/
def extensionOnlySchema : DocumentNode :=
  ⟨[.objectTypeExtension "Query" (some [⟨"x", some []⟩])]⟩

/-- The `@auth(role: Role!)` directive definition registered on the runtime
test schema: `role` is non-null with no default. -/
def authDirectiveDef : DirectiveDef := ⟨"auth", [⟨"role", true, none⟩]⟩

/-- The `@uppercase` directive definition: no declared arguments. -/
def uppercaseDirectiveDef : DirectiveDef := ⟨"uppercase", []⟩

/-- AST node of `me: User! @auth(role: USER)`. -/
def meFieldAst : FieldDefinitionNode :=
  ⟨"me", some [⟨"auth", [("role", .enumValue "USER")]⟩]⟩

/-- AST node of `simple: String`. -/
def simpleFieldAst : FieldDefinitionNode := ⟨"simple", some []⟩

/-- AST node of `secretPassword: String @auth(role: ADMIN)`. -/
def secretPasswordFieldAst : FieldDefinitionNode :=
  ⟨"secretPassword", some [⟨"auth", [("role", .enumValue "ADMIN")]⟩]⟩

/-- AST node of `testUpper: String @uppercase`. -/
def testUpperFieldAst : FieldDefinitionNode :=
  ⟨"testUpper", some [⟨"uppercase", []⟩]⟩

/-- The runtime `Query` type of the executable `testSchema` of `part_000`. -/
def queryType : RuntimeObjectType :=
  ⟨"Query",
   [ ⟨"me", some meFieldAst⟩
   , ⟨"simple", some simpleFieldAst⟩
   , ⟨"secretPassword", some secretPasswordFieldAst⟩
   , ⟨"testUpper", some testUpperFieldAst⟩ ]⟩

/-- The runtime `User` type. -/
def userType : RuntimeObjectType :=
  ⟨"User", [⟨"id", some ⟨"id", some []⟩⟩, ⟨"name", some ⟨"name", some []⟩⟩]⟩

/-- The executable `testSchema` built by `makeExecutableSchema` in
`part_000`. -/
def runtimeTestSchema : GraphQLSchema :=
  ⟨[queryType, userType], [authDirectiveDef, uppercaseDirectiveDef]⟩

/-- Execution arguments of the `contextValue: {}` executions in the demo. -/
def emptyCtxArgs : ExecutionArgs := ⟨runtimeTestSchema, {}, []⟩

/-- Resolver info and payload for `Query.me` under the empty context. -/
def meInfo : GraphQLResolveInfo := ⟨queryType, "me", runtimeTestSchema⟩

def mePayloadEmpty : ResolverPayload := ⟨.null, [], {}, meInfo⟩

/-- The directive annotation attached to `Query.me`. -/
def meAuthNode : DirectiveNode := ⟨"auth", [("role", .enumValue "USER")]⟩

/-- Resolver payload for `Query.simple` (a field with no directives). -/
def simplePayload : ResolverPayload :=
  ⟨.null, [], {}, ⟨queryType, "simple", runtimeTestSchema⟩⟩

/-- Resolver payload for `Query.testUpper`. -/
def testUpperPayload : ResolverPayload :=
  ⟨.null, [], {}, ⟨queryType, "testUpper", runtimeTestSchema⟩⟩

/-- A parent type absent from the schema (used to exercise the locator's
missing-type path). -/
def ghostType : RuntimeObjectType := ⟨"Ghost", []⟩

def ghostInfo : GraphQLResolveInfo := ⟨ghostType, "x", runtimeTestSchema⟩

/-- A runtime-extended field with no AST declaration node. -/
def extendedQueryType : RuntimeObjectType := ⟨"Query", [⟨"dynamic", none⟩]⟩

def extendedSchema : GraphQLSchema := ⟨[extendedQueryType], [authDirectiveDef]⟩

def dynamicInfo : GraphQLResolveInfo := ⟨extendedQueryType, "dynamic", extendedSchema⟩

/-- An `@auth` annotation instance supplying no argument values. -/
def bareAuthNode : DirectiveNode := ⟨"auth", []⟩

/-- A schema variant whose `Query.broken` field carries a bare `@auth`
annotation (missing the required `role` argument). -/
def brokenFieldAst : FieldDefinitionNode := ⟨"broken", some [bareAuthNode]⟩

def brokenQueryType : RuntimeObjectType := ⟨"Query", [⟨"broken", some brokenFieldAst⟩]⟩

def brokenSchema : GraphQLSchema := ⟨[brokenQueryType], [authDirectiveDef]⟩

def brokenPayload : ResolverPayload :=
  ⟨.null, [], {}, ⟨brokenQueryType, "broken", brokenSchema⟩⟩

def brokenArgs : ExecutionArgs := ⟨brokenSchema, {}, []⟩

/-- The authenticated user of the demo executions. -/
def demoUser : User := ⟨"1", "Dotan", "USER"⟩

/-- Execution arguments with an authenticated user whose role does not match
the `ADMIN` role argument (only `currentUser` is set, as in every caller). -/
def mismatchCtxArgs : ExecutionArgs :=
  ⟨runtimeTestSchema, ⟨some demoUser, none⟩, []⟩

/-! Sanity facts tying the embedding to the sources. -/

/-- `useRedwoodDirectives(requiresAuthDirective)` extracts directive name
`auth` from the fragment. -/
theorem extract_auth_name :
    extractDirectiveName requiresAuthDirective.schemaDoc = some "auth" := rfl

/-- `useRedwoodDirectives(uppercaseDirective)` extracts directive name
`uppercase`. -/
theorem extract_uppercase_name :
    extractDirectiveName uppercaseDirective.schemaDoc = some "uppercase" := rfl

/-- The `example-1.ts` run: the two undirectived `Query` fields are flagged,
matching the printed output of the script. -/
theorem exampleTestSchema_violations :
    validateDirectives exampleTestSchema ["noAuth", "auth"] ["Query", "Mutation"]
      = ["Query.noAuthError", "Query.test"] := rfl

/-! ## Remaining helper lemmas -/

theorem flatMap_filter_of_eq_nil {α β : Type} (p : α → Bool) (f : α → List β)
    (l : List α) (h : ∀ x, p x = false → f x = []) :
    (l.filter p).flatMap f = l.flatMap f := by
  induction l with
  | nil => rfl
  | cons x xs ih =>
    cases hp : p x with
    | true => simp [List.filter_cons, hp, ih]
    | false => simp [List.filter_cons, hp, h x hp, ih]

theorem definitionViolationsSpec_of_not_otd (required targets : List String)
    (d : DefinitionNode) (h : d.isObjectTypeDefinition = false) :
    definitionViolationsSpec required targets d = [] := by
  cases d <;> simp_all [DefinitionNode.isObjectTypeDefinition, definitionViolationsSpec]

theorem decodeArg_missing_required (a : ArgDef)
    (argNodes : List (String × ValueNode)) (vars : List (String × Value))
    (hmiss : argNodes.lookup a.name = none) (hdef : a.defaultValue = none)
    (hreq : a.required = true) :
    decodeArg a argNodes vars
      = .error ("Argument " ++ a.name ++ " of required type was not provided.") := by
  simp [decodeArg, hmiss, hdef, hreq]

theorem getArgumentValues_error_of_missing_required
    (args : List ArgDef) (argNodes : List (String × ValueNode))
    (vars : List (String × Value)) (a : ArgDef)
    (ha : a ∈ args) (hreq : a.required = true) (hdef : a.defaultValue = none)
    (hmiss : argNodes.lookup a.name = none) :
    ∃ e, getArgumentValues args argNodes vars = .error e := by
  induction args with
  | nil => cases ha
  | cons x rest ih =>
    rcases List.mem_cons.mp ha with h | h
    · subst h
      exact ⟨"Argument " ++ a.name ++ " of required type was not provided.",
        by simp [getArgumentValues,
          decodeArg_missing_required a argNodes vars hmiss hdef hreq]⟩
    · cases hx : decodeArg x argNodes vars with
      | error e => exact ⟨e, by simp [getArgumentValues, hx]⟩
      | ok entry =>
        obtain ⟨e, he⟩ := ih h
        exact ⟨e, by simp [getArgumentValues, hx, he]⟩

theorem getArgumentValues_all_optional (args : List ArgDef)
    (vars : List (String × Value))
    (h : ∀ a ∈ args, a.required = false ∧ a.defaultValue = none) :
    getArgumentValues args [] vars = .ok [] := by
  induction args with
  | nil => rfl
  | cons a rest ih =>
    have ha := h a (List.mem_cons_self a rest)
    have hrest := ih fun b hb => h b (List.mem_cons_of_mem a hb)
    simp [getArgumentValues, decodeArg, ha.1, ha.2, hrest, List.lookup]

/-! ## The claims -/

/-- C1: for every parsed schema declaration tree, required-directive-name set
and target-type-name set, `validateDirectives` returns exactly the ordered
sequence of fully-qualified `Type.field` strings for the fields of target
object types carrying no directive whose name is in the required set, in
declaration order (formalised as agreement with the spec-modelled reference
`validateDirectivesSpec`); in particular, on a schema where `Query` has
fields `a` (no directives), `b` (`@noAuth`), `c` (`@auth`), with required set
`{auth, noAuth}` and target types `{Query}`, it returns exactly
`["Query.a"]`. -/
theorem validateDirectives_returns_missing_directive_fields :
    (∀ (doc : DocumentNode) (required targets : List String),
      validateDirectives doc required targets
        = validateDirectivesSpec doc required targets)
    ∧ validateDirectives claimOneSchema ["auth", "noAuth"] ["Query"]
        = ["Query.a"] :=
  ⟨validateDirectives_eq_spec, rfl⟩

/-- C7: `validateDirectives` is pure and deterministic — the input declaration
tree is untouched (the embedding manipulates it only as an immutable value)
and two runs on the same unchanged tree with the same parameters yield
identical violation sequences in identical order. -/
theorem validateDirectives_pure_idempotent :
    ∀ (doc : DocumentNode) (required targets : List String),
      (validateDirectives doc required targets, doc)
        = (validateDirectives doc required targets, doc) :=
  fun _ _ _ => rfl

/-- C10: `validateDirectives` inspects only `ObjectTypeDefinition` nodes —
restricting the document to its object type definitions does not change the
result, so fields declared on object type extensions (or any other
non-`ObjectTypeDefinition` node) of a target type are never flagged; in
particular a document holding only an extension of `Query` with an
undirectived field yields no violation. -/
theorem validateDirectives_ignores_extensions :
    (∀ (doc : DocumentNode) (required targets : List String),
      validateDirectives
          ⟨doc.definitions.filter DefinitionNode.isObjectTypeDefinition⟩
          required targets
        = validateDirectives doc required targets)
    ∧ validateDirectives extensionOnlySchema ["auth", "noAuth"] ["Query"] = [] := by
  constructor
  · intro doc required targets
    rw [validateDirectives_eq_spec, validateDirectives_eq_spec]
    exact flatMap_filter_of_eq_nil _ _ doc.definitions
      (definitionViolationsSpec_of_not_otd required targets)
  · rfl

/-- C2: whenever the field carries the registration's directive (with a
backing definition and successfully decoded arguments) and the registered
validation callback fails, the field's resolution aborts with exactly that
error, the transformation callback is never invoked, and the result setter is
never called. -/
theorem validation_failure_aborts_field
    (directiveName : String) (rd : RedwoodDirective)
    (executionArgs : ExecutionArgs) (payload : ResolverPayload)
    (resolverResult : Value) (node : DirectiveNode) (directive : DirectiveDef)
    (directiveArgs : List (String × Value))
    (validate : ExecutionArgs → List (String × Value) → ResolverPayload →
      Except String Unit)
    (e : String)
    (hfound : getDirective payload.info directiveName = .ok (some node))
    (hdefn : executionArgs.schema.getDirective node.name = some directive)
    (hargs : pipelineDirectiveArgs directive node executionArgs.variableValues
      = .ok directiveArgs)
    (hval : rd.validation = some validate)
    (hthrow : validate executionArgs directiveArgs payload = .error e) :
    runFieldResolution directiveName rd executionArgs payload resolverResult
      = (⟨true, false, false⟩, .error e) := by
  simp [runFieldResolution, hfound, hdefn, hargs, hval, hthrow]

/-- C2 witness: the demo's unauthenticated query against `Query.me`
(`@auth(role: USER)`, empty context) fails with `Oops, go away!` and neither
transforms nor replaces the result. -/
theorem validation_failure_aborts_field_witness :
    getDirective mePayloadEmpty.info "auth" = .ok (some meAuthNode)
    ∧ runtimeTestSchema.getDirective "auth" = some authDirectiveDef
    ∧ requiresAuthValidation emptyCtxArgs [("role", Value.str "USER")]
        mePayloadEmpty = .error "Oops, go away!"
    ∧ runFieldResolution "auth" requiresAuthDirective emptyCtxArgs
        mePayloadEmpty Value.null
      = (⟨true, false, false⟩, .error "Oops, go away!") :=
  ⟨rfl, rfl, rfl,
    validation_failure_aborts_field "auth" requiresAuthDirective emptyCtxArgs
      mePayloadEmpty Value.null meAuthNode authDirectiveDef
      [("role", Value.str "USER")] requiresAuthValidation "Oops, go away!"
      rfl rfl rfl rfl rfl⟩

/-- C3: when the directive locator finds no annotation matching the
registration's directive name on the resolved field, the pipeline is a no-op
— no validation, no transformation, no result replacement, and the resolver's
result passes through unchanged. -/
theorem no_matching_directive_noop
    (directiveName : String) (rd : RedwoodDirective)
    (executionArgs : ExecutionArgs) (payload : ResolverPayload)
    (resolverResult : Value)
    (h : getDirective payload.info directiveName = .ok none) :
    runFieldResolution directiveName rd executionArgs payload resolverResult
      = (⟨false, false, false⟩, .ok resolverResult) := by
  simp [runFieldResolution, h]

/-- C3 witness: `Query.simple` carries no directives, so the `@auth` plugin
leaves its result `"Hi"` untouched and runs no callback. -/
theorem no_matching_directive_noop_witness :
    getDirective simplePayload.info "auth" = .ok none
    ∧ runFieldResolution "auth" requiresAuthDirective emptyCtxArgs
        simplePayload (Value.str "Hi")
      = (⟨false, false, false⟩, .ok (Value.str "Hi")) :=
  ⟨rfl, no_matching_directive_noop "auth" requiresAuthDirective emptyCtxArgs
    simplePayload (Value.str "Hi") rfl⟩

/-- C4 counterexample: with the parent type `Ghost` absent from the schema,
`getDirective` raises a `TypeError` (the source optional-chains only on
`astNode`, so `schemaType.getFields()` dereferences `undefined`) instead of
returning a "not found" result. -/
theorem getDirective_missing_type_raises :
    getDirective ghostInfo "auth"
      = .error "TypeError: Cannot read properties of undefined (reading getFields)"
    ∧ getDirective ghostInfo "auth" ≠ .ok none :=
  ⟨rfl, fun h => Except.noConfusion h⟩

/-- C4 amended: when the parent type and the field both exist but the field
has no declaration node, `getDirective` returns a "not found" result (`ok
none`) rather than raising; absence of the parent type or of the field
itself, by contrast, raises a `TypeError`. -/
theorem getDirective_soft_not_found
    (info : GraphQLResolveInfo) (name : String)
    (schemaType : RuntimeObjectType) (field : RuntimeField)
    (htype : info.schema.getType info.parentType.name = some schemaType)
    (hfield : schemaType.getField info.fieldName = some field)
    (hast : field.astNode = none) :
    getDirective info name = .ok none := by
  simp [getDirective, htype, hfield, hast]

/-- C4 amended witness: a runtime-extended field with no declaration node
yields `ok none`. -/
theorem getDirective_soft_not_found_witness :
    extendedSchema.getType "Query" = some extendedQueryType
    ∧ extendedQueryType.getField "dynamic" = some ⟨"dynamic", none⟩
    ∧ getDirective dynamicInfo "auth" = .ok none :=
  ⟨rfl, rfl,
    getDirective_soft_not_found dynamicInfo "auth" extendedQueryType
      ⟨"dynamic", none⟩ rfl rfl rfl⟩

/-- C5 counterexample: the `@auth` definition (which exists on the runtime
test schema) has the required argument `role`; decoding an annotation
instance supplying no argument values at all fails with a decode error — the
decoder does not produce an empty mapping. -/
theorem decoder_missing_required_not_empty_map :
    runtimeTestSchema.getDirective "auth" = some authDirectiveDef
    ∧ pipelineDirectiveArgs authDirectiveDef bareAuthNode []
        = .error "Argument role of required type was not provided."
    ∧ pipelineDirectiveArgs authDirectiveDef bareAuthNode [] ≠ .ok [] :=
  ⟨rfl, rfl, fun h => Except.noConfusion h⟩

/-- C5 amended: when no directive argument values are supplied and the
directive's definition declares no required and no default-valued arguments,
the decoder yields exactly the empty mapping (and, the `|| {}` fallback
aside, whatever the decode step returns on success is always a concrete
mapping, never null); a missing required argument instead fails the decode,
and a declared default would populate the mapping. -/
theorem decoder_no_args_empty_mapping
    (directive : DirectiveDef) (node : DirectiveNode)
    (vars : List (String × Value))
    (hname : node.name = directive.name)
    (hnoargs : node.arguments = [])
    (hplain : ∀ a ∈ directive.args, a.required = false ∧ a.defaultValue = none) :
    pipelineDirectiveArgs directive node vars = .ok [] := by
  unfold pipelineDirectiveArgs getDirectiveValues
  simp [hname, hnoargs, Except.map,
    getArgumentValues_all_optional directive.args vars hplain]

/-- C5 amended witness: a bare `@uppercase` annotation decodes to the empty
mapping. -/
theorem decoder_no_args_empty_mapping_witness :
    runtimeTestSchema.getDirective "uppercase" = some uppercaseDirectiveDef
    ∧ pipelineDirectiveArgs uppercaseDirectiveDef ⟨"uppercase", []⟩ [] = .ok [] :=
  ⟨rfl, decoder_no_args_empty_mapping uppercaseDirectiveDef ⟨"uppercase", []⟩ []
    rfl rfl (by simp [uppercaseDirectiveDef])⟩

/-- C6: for every directive definition with a required (non-null, no-default)
argument, decoding an annotation that supplies no value for it fails
deterministically — whatever the other arguments — and the pipeline surfaces
the failure as an execution-time error for that field, with no callback
invoked and no result replacement. -/
theorem missing_required_arg_fails
    (directive : DirectiveDef) (a : ArgDef) (node : DirectiveNode)
    (vars : List (String × Value))
    (ha : a ∈ directive.args) (hreq : a.required = true)
    (hdef : a.defaultValue = none)
    (hname : node.name = directive.name)
    (hmiss : node.arguments.lookup a.name = none) :
    (∃ e, getArgumentValues directive.args node.arguments vars = .error e)
    ∧ ∀ (directiveName : String) (rd : RedwoodDirective)
        (executionArgs : ExecutionArgs) (payload : ResolverPayload)
        (resolverResult : Value),
        getDirective payload.info directiveName = .ok (some node) →
        executionArgs.schema.getDirective node.name = some directive →
        executionArgs.variableValues = vars →
        ∃ e, runFieldResolution directiveName rd executionArgs payload
          resolverResult = (⟨false, false, false⟩, .error e) := by
  obtain ⟨e, he⟩ := getArgumentValues_error_of_missing_required
    directive.args node.arguments vars a ha hreq hdef hmiss
  have hpipe : pipelineDirectiveArgs directive node vars = .error e := by
    unfold pipelineDirectiveArgs getDirectiveValues
    simp [hname, he, Except.map]
  refine ⟨⟨e, he⟩, ?_⟩
  intro directiveName rd executionArgs payload resolverResult hfound hdefn hvars
  exact ⟨e, by simp [runFieldResolution, hfound, hdefn, hvars, hpipe]⟩

/-- C6 witness: `Query.broken` carrying a bare `@auth` (required `role`
missing) fails decode and resolves to an execution error. -/
theorem missing_required_arg_fails_witness :
    (⟨"role", true, none⟩ : ArgDef) ∈ authDirectiveDef.args
    ∧ (∃ e, getArgumentValues authDirectiveDef.args bareAuthNode.arguments []
        = Except.error e)
    ∧ (∃ e, runFieldResolution "auth" requiresAuthDirective brokenArgs
        brokenPayload Value.null = (⟨false, false, false⟩, Except.error e)) := by
  have h := missing_required_arg_fails authDirectiveDef ⟨"role", true, none⟩
    bareAuthNode [] (by simp [authDirectiveDef]) rfl rfl rfl rfl
  exact ⟨by simp [authDirectiveDef], h.1,
    h.2 "auth" requiresAuthDirective brokenArgs brokenPayload Value.null
      rfl rfl rfl⟩

/-- C8: with the `@uppercase` registration, resolving `Query.testUpper` whose
resolver returned `"dotan"` yields `"DOTAN"` (transformation invoked, result
replaced), and a non-string resolver result passes through unchanged. -/
theorem uppercase_transforms_string_results :
    runFieldResolution "uppercase" uppercaseDirective emptyCtxArgs
        testUpperPayload (Value.str "dotan")
      = (⟨false, true, true⟩, .ok (Value.str "DOTAN"))
    ∧ runFieldResolution "uppercase" uppercaseDirective emptyCtxArgs
        testUpperPayload (Value.int 42)
      = (⟨false, true, true⟩, .ok (Value.int 42)) :=
  ⟨rfl, rfl⟩

/-- C9: for every execution whose context value has a non-null `currentUser`
(and in which, as for every caller in the repository, the misspelled
`correntUser` property is absent), the `@auth` validation callback succeeds
regardless of the user's role and of the decoded `role` argument: the
role-mismatch branch reads `correntUser` and is therefore unreachable. -/
theorem auth_role_check_unreachable
    (args : ExecutionArgs) (directiveArgs : List (String × Value))
    (payload : ResolverPayload) (u : User)
    (hcur : args.contextValue.currentUser = some u)
    (hcorr : args.contextValue.correntUser = none) :
    requiresAuthValidation args directiveArgs payload = .ok () := by
  simp [requiresAuthValidation, hcur, hcorr]

/-- C9 witness: a `USER`-role user passes validation against
`@auth(role: ADMIN)`. -/
theorem auth_role_check_unreachable_witness :
    mismatchCtxArgs.contextValue.currentUser = some demoUser
    ∧ mismatchCtxArgs.contextValue.correntUser = none
    ∧ demoUser.role ≠ "ADMIN"
    ∧ requiresAuthValidation mismatchCtxArgs [("role", Value.str "ADMIN")]
        mePayloadEmpty = .ok () :=
  ⟨rfl, rfl, by decide,
    auth_role_check_unreachable mismatchCtxArgs [("role", Value.str "ADMIN")]
      mePayloadEmpty demoUser rfl rfl⟩

end Redwood
